import Mathlib

/-!
Verification of the trust-dns resolver adapter (`src/dns.rs`).

The adapter wraps a lazily constructed `AsyncResolver` behind an
`Arc<Mutex<State>>`.  We give two complementary shallow embeddings:

* a sequential functional model `TrustDnsResolver.call` of the body of
  `Service::call`, instrumented with counters (engine-construction
  attempts, accesses of the `SYSTEM_CONF` lazy static, engine lookups)
  so that claims about "what happens during a call" are statable;

* a small-step interleaving semantics (`Step`) of the same body for the
  concurrency claims: each task runs the program
  acquire-lock, inspect state, construct-if-needed and store `Ready`,
  release lock, then look up outside the lock.

External collaborators (trust-dns `ResolverConfig`/`ResolverOpts`,
`AsyncResolver::new`, `lookup_ip`, `system_conf::read_system_conf`) are
opaque to this crate and are modelled as an environment `Env` of oracles,
following the interface the spec gives for them.
-/

namespace TrustDns

/-- Opaque stand-in for trust-dns `ResolverConfig` (external to this crate). -/
structure ResolverConfig where
  id : Nat
deriving DecidableEq

/-- Opaque stand-in for trust-dns `ResolverOpts` (external to this crate). -/
structure ResolverOpts where
  id : Nat
deriving DecidableEq

/-- Model of `std::io::Error`: an error kind together with its display text. -/
structure IoError where
  kind : Nat
  msg : String
deriving DecidableEq

/-- Opaque stand-in for the trust-dns resolver error type (construction and
lookup failures of the engine). -/
structure ResolveError where
  msg : String
deriving DecidableEq

/-- Model of `crate::error::BoxError`: the component's generic boxed error
kind.  The `?` operator in `call` wraps an engine error into it. -/
inductive BoxError where
  | box (e : ResolveError)
deriving DecidableEq

/-- Opaque stand-in for `std::net::IpAddr`. -/
abbrev IpAddr := Nat

/-- Model of `SharedResolver = Arc<AsyncResolver<...>>`: a handle naming one
constructed engine.  Two handles are to the same engine iff they are equal. -/
abbrev SharedResolver := Nat

/-- Model of trust-dns `LookupIp`: the finite sequence of addresses the
engine produced for one query, produced once and stored. -/
structure LookupIp where
  ips : List IpAddr
deriving DecidableEq

/-- Model of trust-dns `LookupIpIntoIter`: the iterator returned by
`LookupIp::into_iter`, holding the not-yet-yielded addresses. -/
structure LookupIpIntoIter where
  remaining : List IpAddr
deriving DecidableEq

/-- Model of `LookupIp::into_iter` (line 98 of `dns.rs`). -/
def LookupIp.into_iter (l : LookupIp) : LookupIpIntoIter :=
  { remaining := l.ips }

/-- One step of the iterator: yields the next address, if any. -/
def LookupIpIntoIter.next : LookupIpIntoIter → Option (IpAddr × LookupIpIntoIter)
  | { remaining := [] } => none
  | { remaining := a :: rest } => some (a, { remaining := rest })

/-- Full iteration of the iterator via repeated `next`.  The iterator is a
pure value over a stored list, so draining it never queries the engine and
draining the same iterator value again replays the same addresses. -/
def LookupIpIntoIter.drain : LookupIpIntoIter → List IpAddr
  | { remaining := [] } => []
  | { remaining := a :: rest } => a :: LookupIpIntoIter.drain { remaining := rest }

/-- Outcome of a Rust function that may also panic (`expect`). -/
inductive RustResult (α : Type) where
  | ok (a : α)
  | err (e : BoxError)
  | panicked (msg : String)
deriving DecidableEq

/-- True exactly on the `panicked` outcome. -/
def RustResult.isPanic {α : Type} : RustResult α → Prop
  | RustResult.panicked _ => True
  | _ => False

/-- The `State` enum of `dns.rs` (lines 30–37), the contents of the
adapter's `Arc<Mutex<State>>` cell. -/
inductive State where
  | Init
  | InitWithConfig (config : ResolverConfig) (opts : ResolverOpts)
  | Ready (resolver : SharedResolver)
deriving DecidableEq

/-- True on the two uninitialized variants. -/
def State.isUninit : State → Prop
  | State.Ready _ => False
  | _ => True

/-- The environment of external collaborators: the (process-fixed) outcome
of `system_conf::read_system_conf`, the engine constructor
`AsyncResolver::new` and the engine's `lookup_ip`.  The Tokio runtime
handle argument carries no data relevant to these claims and is elided. -/
structure Env where
  read_system_conf : Except IoError (ResolverConfig × ResolverOpts)
  async_resolver_new : ResolverConfig → ResolverOpts → Except ResolveError SharedResolver
  lookup_ip : SharedResolver → String → Except ResolveError LookupIp

/-- `TrustDnsResolver::new` (lines 40–51): forces `SYSTEM_CONF`; on a read
failure returns an `io::Error` with the same kind and a wrapping message;
otherwise returns an adapter whose state cell holds `State::Init` (the
engine is not constructed here). -/
def TrustDnsResolver.new (env : Env) : Except IoError State :=
  match env.read_system_conf with
  | Except.error e =>
      Except.error { kind := e.kind, msg := "error reading DNS system conf: " ++ e.msg }
  | Except.ok _ => Except.ok State.Init

/-- `TrustDnsResolver::with_config` (lines 53–57): stores the supplied
configuration; takes no environment, so it cannot consult system
configuration. -/
def TrustDnsResolver.with_config (config : ResolverConfig) (opts : ResolverOpts) : State :=
  State.InitWithConfig config opts

/-- Observable outcome of one `Service::call`: the returned value, the state
cell after the call, and counters of the effects performed during the call:
engine-construction attempts (`AsyncResolver::new` invocations), accesses
of the `SYSTEM_CONF` lazy static, and engine `lookup_ip` invocations. -/
structure CallOut where
  result : RustResult LookupIpIntoIter
  state : State
  constructAttempts : Nat
  sysConfReads : Nat
  lookupCalls : Nat
deriving DecidableEq

/-- The tail of `call` after the lock is dropped (lines 93–98): look the
name up against the captured handle and wrap the outcome. -/
def finishLookup (env : Env) (st : State) (r : SharedResolver) (name : String)
    (ca sr : Nat) : CallOut :=
  match env.lookup_ip r name with
  | Except.error e =>
      { result := RustResult.err (BoxError.box e), state := st,
        constructAttempts := ca, sysConfReads := sr, lookupCalls := 1 }
  | Except.ok lookup =>
      { result := RustResult.ok lookup.into_iter, state := st,
        constructAttempts := ca, sysConfReads := sr, lookupCalls := 1 }

/-- The body of `Service::call` (lines 69–100), sequentially: inspect the
state under the lock; on `Init` run `new_resolver` (lines 105–112: read
`SYSTEM_CONF`, panic via `expect` if it is an error, else construct) and
store `Ready`; on `InitWithConfig` run `new_resolver_with_config`
(lines 114–121) and store `Ready`; on `Ready` reuse the handle; a failed
construction propagates via `?` and leaves the cell untouched; the lookup
runs after the lock is dropped. -/
def TrustDnsResolver.call (env : Env) (state : State) (name : String) : CallOut :=
  match state with
  | State.Init =>
      match env.read_system_conf with
      | Except.error _ =>
          { result := RustResult.panicked
              "can't construct TrustDnsResolver if SYSTEM_CONF is error",
            state := state, constructAttempts := 0, sysConfReads := 1, lookupCalls := 0 }
      | Except.ok (config, opts) =>
          match env.async_resolver_new config opts with
          | Except.error e =>
              { result := RustResult.err (BoxError.box e), state := state,
                constructAttempts := 1, sysConfReads := 1, lookupCalls := 0 }
          | Except.ok r => finishLookup env (State.Ready r) r name 1 1
  | State.InitWithConfig config opts =>
      match env.async_resolver_new config opts with
      | Except.error e =>
          { result := RustResult.err (BoxError.box e), state := state,
            constructAttempts := 1, sysConfReads := 0, lookupCalls := 0 }
      | Except.ok r => finishLookup env (State.Ready r) r name 1 0
  | State.Ready r => finishLookup env (State.Ready r) r name 0 0

/-- A sequence of `call`s on one adapter: the per-call outcomes and the
final contents of the state cell. -/
def callSeq (env : Env) (state : State) : List String → List CallOut × State
  | [] => ([], state)
  | n :: ns =>
      let out := TrustDnsResolver.call env state n
      let rest := callSeq env out.state ns
      (out :: rest.1, rest.2)

/-- The `SYSTEM_CONF` lazy static (lines 20–23): a process-wide cell that is
either still unevaluated or holds the cached outcome of
`system_conf::read_system_conf`. -/
def LazyCell := Option (Except IoError (ResolverConfig × ResolverOpts))

/-- Forcing the lazy static: the first force runs the underlying read and
caches its outcome (success or failure alike); later forces return the
cache.  The third component counts underlying reads performed (0 or 1). -/
def LazyCell.force (env : Env) :
    LazyCell → (Except IoError (ResolverConfig × ResolverOpts)) × LazyCell × Nat
  | some v => (v, some v, 0)
  | none => (env.read_system_conf, some env.read_system_conf, 1)

/-- A sequence of `n` forces of the lazy static: the values observed, the
final cell and the total number of underlying reads. -/
def LazyCell.forceSeq (env : Env) (c : LazyCell) :
    Nat → List (Except IoError (ResolverConfig × ResolverOpts)) × LazyCell × Nat
  | 0 => ([], c, 0)
  | n + 1 =>
      let f := LazyCell.force env c
      let rest := LazyCell.forceSeq env f.2.1 n
      (f.1 :: rest.1, rest.2.1, f.2.2 + rest.2.2)

/-- The state cells producible by the public constructors, closed under
performing `call`s: exactly the adapters a client of this module can hold. -/
inductive PublicState (env : Env) : State → Prop where
  | ofNew (s : State) : TrustDnsResolver.new env = Except.ok s → PublicState env s
  | ofWithConfig (c : ResolverConfig) (o : ResolverOpts) :
      PublicState env (TrustDnsResolver.with_config c o)
  | step (s : State) (n : String) : PublicState env s →
      PublicState env ((TrustDnsResolver.call env s n).state)

/-! ## Small-step concurrency model

Each task executing the async block of `call` (lines 71–99) is at one of
the following control points.  `constructing` is the suspension point
awaiting `new_resolver*` while still holding the mutex; `lookingUp` is the
suspension point awaiting `lookup_ip` after `drop(lock)`. -/

/-- Control point of one task running `call`. -/
inductive TPC where
  | start (name : String)
  | locked (name : String)
  | constructing (name : String)
  | lookingUp (name : String) (r : SharedResolver)
  | finished (r : SharedResolver)
  | failed
deriving DecidableEq

/-- The task is inside the mutual-exclusion region (holds the mutex). -/
def TPC.inCritical : TPC → Prop
  | TPC.locked _ => True
  | TPC.constructing _ => True
  | _ => False

/-- The task is awaiting engine construction. -/
def TPC.isConstructing : TPC → Prop
  | TPC.constructing _ => True
  | _ => False

/-- The task is looking up, or has completed a lookup, using handle `r`. -/
def TPC.usesHandle : TPC → SharedResolver → Prop
  | TPC.lookingUp _ r, h => r = h
  | TPC.finished r, h => r = h
  | _, _ => False

/-- The task is at the lookup suspension point. -/
def TPC.isLookingUp : TPC → Prop
  | TPC.lookingUp _ _ => True
  | _ => False

/-- Global configuration: who holds the adapter's mutex, the contents of
the shared state cell, every task's control point, a supply of fresh
engine handles (each successful construction yields a distinct engine),
and a counter of successful `*lock = State::Ready(..)` stores. -/
structure Global where
  lockHolder : Option Nat
  state : State
  threads : Nat → TPC
  nextHandle : Nat
  readySuccesses : Nat

/-- Interleaving semantics of the body of `call`.  Construction may
nondeterministically succeed (storing `Ready` with a fresh handle and
releasing the lock) or fail (the `?` return: the cell is left untouched
and the lock guard is dropped).  The lookup step needs no lock. -/
inductive Step : Global → Global → Prop where
  | acquire (g : Global) (t : Nat) (n : String) :
      g.threads t = TPC.start n → g.lockHolder = none →
      Step g { g with lockHolder := some t,
                      threads := Function.update g.threads t (TPC.locked n) }
  | inspectReady (g : Global) (t : Nat) (n : String) (r : SharedResolver) :
      g.threads t = TPC.locked n → g.state = State.Ready r →
      Step g { g with lockHolder := none,
                      threads := Function.update g.threads t (TPC.lookingUp n r) }
  | inspectUninit (g : Global) (t : Nat) (n : String) :
      g.threads t = TPC.locked n → g.state.isUninit →
      Step g { g with threads := Function.update g.threads t (TPC.constructing n) }
  | constructOk (g : Global) (t : Nat) (n : String) :
      g.threads t = TPC.constructing n →
      Step g { lockHolder := none, state := State.Ready g.nextHandle,
               threads := Function.update g.threads t (TPC.lookingUp n g.nextHandle),
               nextHandle := g.nextHandle + 1,
               readySuccesses := g.readySuccesses + 1 }
  | constructFail (g : Global) (t : Nat) (n : String) :
      g.threads t = TPC.constructing n →
      Step g { g with lockHolder := none,
                      threads := Function.update g.threads t TPC.failed }
  | lookupDone (g : Global) (t : Nat) (n : String) (r : SharedResolver) :
      g.threads t = TPC.lookingUp n r →
      Step g { g with threads := Function.update g.threads t (TPC.finished r) }

/-- A freshly constructed adapter with state cell `s` and one pending
`resolve(names t)` call per task `t`. -/
def initGlobal (s : State) (names : Nat → String) : Global :=
  { lockHolder := none, state := s, threads := fun t => TPC.start (names t),
    nextHandle := 0, readySuccesses := 0 }

/-- Configurations reachable by interleaving the pending calls. -/
def Reachable (s : State) (names : Nat → String) (g : Global) : Prop :=
  Relation.ReflTransGen Step (initGlobal s names) g

/-- Mutex invariant: a task is inside the mutual-exclusion region (state
inspection / construction / store) exactly when it is the lock holder. -/
def LockInv (g : Global) : Prop :=
  ∀ t, g.lockHolder = some t ↔ (g.threads t).inCritical

/-- Single-flight invariant relative to the initial cell `s`: while the
cell is uninitialized it is untouched and nothing has been looked up;
once it is `Ready h`, exactly one construction succeeded and every task
that looks up (or has looked up) uses handle `h`. -/
def HandleInv (s : State) (g : Global) : Prop :=
  (∀ t, (g.threads t).isConstructing → g.state.isUninit) ∧
  (g.state.isUninit → g.state = s ∧ g.readySuccesses = 0 ∧
      ∀ t r, ¬ (g.threads t).usesHandle r) ∧
  (∀ h, g.state = State.Ready h → g.readySuccesses = 1 ∧
      ∀ t r, (g.threads t).usesHandle r → r = h) ∧
  g.readySuccesses ≤ 1

/-- Two concurrent `resolve("example.test")` calls. -/
def exName : Nat → String := fun _ => "example.test"

/-- Fresh default adapter with the two pending calls. -/
def gA : Global := initGlobal State.Init exName

/-- Task 0 has acquired the initialization lock. -/
def gB : Global :=
  { gA with lockHolder := some 0,
            threads := Function.update gA.threads 0 (TPC.locked "example.test") }

/-- Task 0 has observed `Init` and awaits engine construction. -/
def gC : Global :=
  { gB with threads := Function.update gB.threads 0 (TPC.constructing "example.test") }

/-- Task 0 stored `Ready 0`, released the lock, and looks up. -/
def gD : Global :=
  { lockHolder := none, state := State.Ready gC.nextHandle,
    threads := Function.update gC.threads 0 (TPC.lookingUp "example.test" gC.nextHandle),
    nextHandle := gC.nextHandle + 1, readySuccesses := gC.readySuccesses + 1 }

/-- Task 1 has acquired the lock while task 0 is still looking up. -/
def gE : Global :=
  { gD with lockHolder := some 1,
            threads := Function.update gD.threads 1 (TPC.locked "example.test") }

/-- Task 1 observed `Ready 0`, released the lock, and looks up too:
both tasks are simultaneously at the lookup suspension point. -/
def gF : Global :=
  { gE with lockHolder := none,
            threads := Function.update gE.threads 1 (TPC.lookingUp "example.test" 0) }

/-- Sample environment: system configuration reads fine, construction
succeeds with engine handle 7, `"bad.test"` fails to resolve and every
other name resolves to the two addresses 10 and 2. -/
def envW : Env :=
  { read_system_conf := Except.ok ({ id := 0 }, { id := 0 }),
    async_resolver_new := fun _ _ => Except.ok 7,
    lookup_ip := fun _ n =>
      if n = "bad.test" then Except.error { msg := "nxdomain" }
      else Except.ok { ips := [10, 2] } }

/-- Sample environment whose system-configuration read fails. -/
def envBad : Env :=
  { read_system_conf := Except.error { kind := 2, msg := "no resolv conf" },
    async_resolver_new := fun _ _ => Except.error { msg := "construction failed" },
    lookup_ip := fun _ _ => Except.error { msg := "unreachable" } }

/-- Sample environment where engine construction fails although the system
configuration reads fine. -/
def envCFail : Env :=
  { read_system_conf := Except.ok ({ id := 0 }, { id := 0 }),
    async_resolver_new := fun _ _ => Except.error { msg := "bad config" },
    lookup_ip := fun _ _ => Except.ok { ips := [1] } }

theorem LookupIpIntoIter.drain_eq (it : LookupIpIntoIter) :
    it.drain = it.remaining := by
  obtain ⟨l⟩ := it
  induction l with
  | nil => simp [LookupIpIntoIter.drain]
  | cons a rest ih =>
      simp only [LookupIpIntoIter.drain]
      simpa using ih

/-- Draining agrees with iterating through `next` until exhaustion. -/
theorem LookupIpIntoIter.drain_next (it : LookupIpIntoIter) :
    it.drain = match it.next with
      | none => []
      | some (a, it2) => a :: it2.drain := by
  obtain ⟨l⟩ := it
  cases l <;> simp [LookupIpIntoIter.drain, LookupIpIntoIter.next]

theorem State.isUninit.ne_ready {s : State} (hu : s.isUninit) (h : SharedResolver) :
    s ≠ State.Ready h := by
  intro he
  rw [he] at hu
  exact hu

theorem lockInv_init (s : State) (names : Nat → String) : LockInv (initGlobal s names) := by
  intro t
  constructor
  · intro h
    exact Option.noConfusion h
  · intro h
    simp [initGlobal, TPC.inCritical] at h

theorem lockInv_step {g g' : Global} (hinv : LockInv g) (hs : Step g g') : LockInv g' := by
  cases hs with
  | acquire t n ht hl =>
      intro t'
      dsimp only
      by_cases he : t' = t
      · subst he
        simp [TPC.inCritical]
      · rw [Function.update_noteq he]
        constructor
        · intro h
          injection h with h
          exact absurd h.symm he
        · intro h
          have h2 := (hinv t').mpr h
          rw [hl] at h2
          exact Option.noConfusion h2
  | inspectReady t n r ht hr =>
      have hlt : g.lockHolder = some t := (hinv t).mpr (by rw [ht]; trivial)
      intro t'
      dsimp only
      constructor
      · intro h
        exact Option.noConfusion h
      · intro h
        by_cases he : t' = t
        · subst he
          rw [Function.update_same] at h
          simp [TPC.inCritical] at h
        · rw [Function.update_noteq he] at h
          have h2 := (hinv t').mpr h
          rw [hlt] at h2
          injection h2 with h2
          exact absurd h2.symm he
  | inspectUninit t n ht hu =>
      have hlt : g.lockHolder = some t := (hinv t).mpr (by rw [ht]; trivial)
      intro t'
      dsimp only
      by_cases he : t' = t
      · subst he
        rw [Function.update_same, hlt]
        simp [TPC.inCritical]
      · rw [Function.update_noteq he]
        exact hinv t'
  | constructOk t n ht =>
      have hlt : g.lockHolder = some t := (hinv t).mpr (by rw [ht]; trivial)
      intro t'
      dsimp only
      constructor
      · intro h
        exact Option.noConfusion h
      · intro h
        by_cases he : t' = t
        · subst he
          rw [Function.update_same] at h
          simp [TPC.inCritical] at h
        · rw [Function.update_noteq he] at h
          have h2 := (hinv t').mpr h
          rw [hlt] at h2
          injection h2 with h2
          exact absurd h2.symm he
  | constructFail t n ht =>
      have hlt : g.lockHolder = some t := (hinv t).mpr (by rw [ht]; trivial)
      intro t'
      dsimp only
      constructor
      · intro h
        exact Option.noConfusion h
      · intro h
        by_cases he : t' = t
        · subst he
          rw [Function.update_same] at h
          simp [TPC.inCritical] at h
        · rw [Function.update_noteq he] at h
          have h2 := (hinv t').mpr h
          rw [hlt] at h2
          injection h2 with h2
          exact absurd h2.symm he
  | lookupDone t n r ht =>
      intro t'
      dsimp only
      by_cases he : t' = t
      · subst he
        rw [Function.update_same]
        constructor
        · intro h
          have h2 := (hinv t').mp h
          rw [ht] at h2
          simp [TPC.inCritical] at h2
        · intro h
          simp [TPC.inCritical] at h
      · rw [Function.update_noteq he]
        exact hinv t'

theorem lockInv_reachable {s : State} {names : Nat → String} {g : Global}
    (hg : Reachable s names g) : LockInv g := by
  unfold Reachable at hg
  induction hg with
  | refl => exact lockInv_init s names
  | tail _ hstep ih => exact lockInv_step ih hstep

theorem tpcProp_update {P : TPC → Prop} {f : Nat → TPC} {t t' : Nat} {pc : TPC}
    (h : P (Function.update f t pc t')) :
    (t' = t ∧ P pc) ∨ (t' ≠ t ∧ P (f t')) := by
  by_cases he : t' = t
  · subst he
    rw [Function.update_same] at h
    exact Or.inl ⟨rfl, h⟩
  · rw [Function.update_noteq he] at h
    exact Or.inr ⟨he, h⟩

theorem TPC.inCritical_of_isConstructing {pc : TPC} (h : pc.isConstructing) :
    pc.inCritical := by
  cases pc <;> simp [TPC.isConstructing, TPC.inCritical] at h ⊢

theorem handleInv_init (s : State) (names : Nat → String) (hu : s.isUninit) :
    HandleInv s (initGlobal s names) := by
  refine ⟨?_, ?_, ?_, ?_⟩
  · intro t hc
    simp [initGlobal, TPC.isConstructing] at hc
  · intro _
    refine ⟨rfl, rfl, ?_⟩
    intro t r hr
    simp [initGlobal, TPC.usesHandle] at hr
  · intro h hs
    exact absurd hs (hu.ne_ready h)
  · exact Nat.zero_le 1

theorem handleInv_step {s : State} {g g' : Global} (hlock : LockInv g)
    (hinv : HandleInv s g) (hs : Step g g') : HandleInv s g' := by
  obtain ⟨ha, hb, hc, hd⟩ := hinv
  cases hs with
  | acquire t n ht hl =>
      refine ⟨?_, ?_, ?_, ?_⟩
      · intro t' hc'
        rcases tpcProp_update hc' with ⟨_, hp⟩ | ⟨_, hp⟩
        · simp [TPC.isConstructing] at hp
        · exact ha _ hp
      · intro hu
        obtain ⟨h1, h2, h3⟩ := hb hu
        refine ⟨h1, h2, ?_⟩
        intro t' r hr
        rcases tpcProp_update (P := fun pc => pc.usesHandle r) hr with ⟨_, hp⟩ | ⟨_, hp⟩
        · simp [TPC.usesHandle] at hp
        · exact h3 _ _ hp
      · intro h hst
        obtain ⟨h1, h2⟩ := hc h hst
        refine ⟨h1, ?_⟩
        intro t' r hr
        rcases tpcProp_update (P := fun pc => pc.usesHandle r) hr with ⟨_, hp⟩ | ⟨_, hp⟩
        · simp [TPC.usesHandle] at hp
        · exact h2 _ _ hp
      · exact hd
  | inspectReady t n r ht hr =>
      refine ⟨?_, ?_, ?_, ?_⟩
      · intro t' hc'
        rcases tpcProp_update hc' with ⟨_, hp⟩ | ⟨_, hp⟩
        · simp [TPC.isConstructing] at hp
        · have h2 := ha _ hp
          rw [hr] at h2
          exact h2.elim
      · intro hu
        have hu2 : g.state.isUninit := hu
        rw [hr] at hu2
        exact hu2.elim
      · intro h hst
        have hst2 : g.state = State.Ready h := hst
        have hrh : r = h := by
          rw [hr] at hst2
          injection hst2
        obtain ⟨h1, h2⟩ := hc h hst2
        refine ⟨h1, ?_⟩
        intro t' r' hr'
        rcases tpcProp_update (P := fun pc => pc.usesHandle r') hr' with ⟨_, hp⟩ | ⟨_, hp⟩
        · have hp2 : r = r' := hp
          cases hp2
          exact hrh
        · exact h2 _ _ hp
      · exact hd
  | inspectUninit t n ht hu0 =>
      refine ⟨?_, ?_, ?_, ?_⟩
      · intro t' _
        exact hu0
      · intro hu
        obtain ⟨h1, h2, h3⟩ := hb hu
        refine ⟨h1, h2, ?_⟩
        intro t' r hr
        rcases tpcProp_update (P := fun pc => pc.usesHandle r) hr with ⟨_, hp⟩ | ⟨_, hp⟩
        · simp [TPC.usesHandle] at hp
        · exact h3 _ _ hp
      · intro h hst
        have hst2 : g.state = State.Ready h := hst
        rw [hst2] at hu0
        exact hu0.elim
      · exact hd
  | constructOk t n ht =>
      have hu0 : g.state.isUninit := ha t (by rw [ht]; trivial)
      obtain ⟨hs0, hrs0, hnouse⟩ := hb hu0
      refine ⟨?_, ?_, ?_, ?_⟩
      · intro t' hc'
        rcases tpcProp_update hc' with ⟨_, hp⟩ | ⟨hne, hp⟩
        · simp [TPC.isConstructing] at hp
        · have e1 := (hlock t').mpr (TPC.inCritical_of_isConstructing hp)
          have e2 := (hlock t).mpr (by rw [ht]; trivial)
          rw [e1] at e2
          injection e2 with e2
          exact absurd e2 hne
      · intro hu
        exact hu.elim
      · intro h hst
        have hnh : g.nextHandle = h := by injection hst
        refine ⟨?_, ?_⟩
        · dsimp only
          rw [hrs0]
        · intro t' r hr
          rcases tpcProp_update (P := fun pc => pc.usesHandle r) hr with ⟨_, hp⟩ | ⟨_, hp⟩
          · have hp2 : g.nextHandle = r := hp
            cases hp2
            exact hnh
          · exact (hnouse _ _ hp).elim
      · dsimp only
        rw [hrs0]
  | constructFail t n ht =>
      have hu0 : g.state.isUninit := ha t (by rw [ht]; trivial)
      refine ⟨?_, ?_, ?_, ?_⟩
      · intro t' _
        exact hu0
      · intro hu
        obtain ⟨h1, h2, h3⟩ := hb hu
        refine ⟨h1, h2, ?_⟩
        intro t' r hr
        rcases tpcProp_update (P := fun pc => pc.usesHandle r) hr with ⟨_, hp⟩ | ⟨_, hp⟩
        · simp [TPC.usesHandle] at hp
        · exact h3 _ _ hp
      · intro h hst
        have hst2 : g.state = State.Ready h := hst
        rw [hst2] at hu0
        exact hu0.elim
      · exact hd
  | lookupDone t n r ht =>
      refine ⟨?_, ?_, ?_, ?_⟩
      · intro t' hc'
        rcases tpcProp_update hc' with ⟨_, hp⟩ | ⟨_, hp⟩
        · simp [TPC.isConstructing] at hp
        · exact ha _ hp
      · intro hu
        obtain ⟨_, _, h3⟩ := hb hu
        exact absurd (show (g.threads t).usesHandle r by rw [ht]; rfl) (h3 t r)
      · intro h hst
        obtain ⟨h1, h2⟩ := hc h hst
        refine ⟨h1, ?_⟩
        intro t' r' hr'
        rcases tpcProp_update (P := fun pc => pc.usesHandle r') hr' with ⟨_, hp⟩ | ⟨_, hp⟩
        · have hp2 : r = r' := hp
          cases hp2
          exact h2 t r (by rw [ht]; rfl)
        · exact h2 _ _ hp
      · exact hd

theorem inv_reachable {s : State} {names : Nat → String} {g : Global}
    (hu : s.isUninit) (hg : Reachable s names g) : LockInv g ∧ HandleInv s g := by
  unfold Reachable at hg
  induction hg with
  | refl => exact ⟨lockInv_init s names, handleInv_init s names hu⟩
  | tail _ hstep ih => exact ⟨lockInv_step ih.1 hstep, handleInv_step ih.1 ih.2 hstep⟩

theorem gF_reachable : Reachable State.Init exName gF := by
  unfold Reachable
  exact Relation.ReflTransGen.tail
    (Relation.ReflTransGen.tail
      (Relation.ReflTransGen.tail
        (Relation.ReflTransGen.tail
          (Relation.ReflTransGen.tail Relation.ReflTransGen.refl
            (Step.acquire gA 0 "example.test" rfl rfl))
          (Step.inspectUninit gB 0 "example.test" rfl trivial))
        (Step.constructOk gC 0 "example.test" rfl))
      (Step.acquire gD 1 "example.test" rfl rfl))
    (Step.inspectReady gE 1 "example.test" 0 rfl rfl)

/-! ## Helper lemmas about the sequential model -/
theorem call_ready (env : Env) (r : SharedResolver) (n : String) :
    (TrustDnsResolver.call env (State.Ready r) n).state = State.Ready r ∧
    (TrustDnsResolver.call env (State.Ready r) n).constructAttempts = 0 ∧
    (TrustDnsResolver.call env (State.Ready r) n).sysConfReads = 0 := by
  unfold TrustDnsResolver.call finishLookup
  cases henv : env.lookup_ip r n <;> simp [henv]

theorem call_state_cases (env : Env) (s : State) (n : String) :
    (TrustDnsResolver.call env s n).state = s ∨
      (s.isUninit ∧ ∃ h, (TrustDnsResolver.call env s n).state = State.Ready h) := by
  cases s with
  | Init =>
      cases hconf : env.read_system_conf with
      | error e => exact Or.inl (by simp [TrustDnsResolver.call, hconf])
      | ok p =>
          obtain ⟨c, o⟩ := p
          cases hnew : env.async_resolver_new c o with
          | error e => exact Or.inl (by simp [TrustDnsResolver.call, hconf, hnew])
          | ok r =>
              refine Or.inr ⟨trivial, r, ?_⟩
              cases henv : env.lookup_ip r n <;>
                simp [TrustDnsResolver.call, finishLookup, hconf, hnew, henv]
  | InitWithConfig c o =>
      cases hnew : env.async_resolver_new c o with
      | error e => exact Or.inl (by simp [TrustDnsResolver.call, hnew])
      | ok r =>
          refine Or.inr ⟨trivial, r, ?_⟩
          cases henv : env.lookup_ip r n <;>
            simp [TrustDnsResolver.call, finishLookup, hnew, henv]
  | Ready r => exact Or.inl (call_ready env r n).1

theorem callSeq_ready (env : Env) (r : SharedResolver) (ns : List String) :
    (callSeq env (State.Ready r) ns).2 = State.Ready r ∧
    ∀ out ∈ (callSeq env (State.Ready r) ns).1, out.constructAttempts = 0 := by
  induction ns with
  | nil =>
      refine ⟨rfl, ?_⟩
      intro out h
      simp [callSeq] at h
  | cons n ns ih =>
      have hr := call_ready env r n
      constructor
      · show (callSeq env (TrustDnsResolver.call env (State.Ready r) n).state ns).2 = _
        rw [hr.1]
        exact ih.1
      · intro out hmem
        simp only [callSeq] at hmem
        rw [hr.1] at hmem
        rcases List.mem_cons.mp hmem with heq | hmem2
        · rw [heq]
          exact hr.2.1
        · exact ih.2 out hmem2

theorem call_not_init (env : Env) (s : State) (n : String) (hs : s ≠ State.Init) :
    (TrustDnsResolver.call env s n).sysConfReads = 0 ∧
    (TrustDnsResolver.call env s n).state ≠ State.Init := by
  cases s with
  | Init => exact absurd rfl hs
  | InitWithConfig c o =>
      cases hnew : env.async_resolver_new c o with
      | error e => simp [TrustDnsResolver.call, hnew]
      | ok r =>
          cases henv : env.lookup_ip r n <;>
            simp [TrustDnsResolver.call, finishLookup, hnew, henv]
  | Ready r =>
      cases henv : env.lookup_ip r n <;>
        simp [TrustDnsResolver.call, finishLookup, henv]

theorem callSeq_no_sysconf (env : Env) (ns : List String) :
    ∀ s, s ≠ State.Init →
      ∀ out ∈ (callSeq env s ns).1, out.sysConfReads = 0 := by
  induction ns with
  | nil =>
      intro s _ out h
      simp [callSeq] at h
  | cons n ns ih =>
      intro s hs out hmem
      simp only [callSeq] at hmem
      rcases List.mem_cons.mp hmem with heq | hmem2
      · rw [heq]
        exact (call_not_init env s n hs).1
      · exact ih _ (call_not_init env s n hs).2 out hmem2

theorem finishLookup_ok (env : Env) (st : State) (r : SharedResolver) (n : String)
    (ca sr : Nat) (it : LookupIpIntoIter)
    (h : (finishLookup env st r n ca sr).result = RustResult.ok it) :
    ∃ ips, env.lookup_ip r n = Except.ok ⟨ips⟩ ∧ it.remaining = ips ∧
      (finishLookup env st r n ca sr).lookupCalls = 1 := by
  unfold finishLookup at h ⊢
  cases hl : env.lookup_ip r n with
  | error e =>
      rw [hl] at h
      simp at h
  | ok l =>
      rw [hl] at h
      simp only [RustResult.ok.injEq] at h
      refine ⟨l.ips, rfl, ?_, rfl⟩
      rw [← h]
      rfl

theorem forceSeq_cached (env : Env) (v : Except IoError (ResolverConfig × ResolverOpts))
    (n : Nat) :
    LazyCell.forceSeq env (some v) n = (List.replicate n v, some v, 0) := by
  induction n with
  | zero => rfl
  | succ n ih => simp [LazyCell.forceSeq, LazyCell.force, ih, List.replicate]

theorem publicState_init_ok {env : Env} {s : State} (h : PublicState env s) :
    s = State.Init → ∃ p, env.read_system_conf = Except.ok p := by
  induction h with
  | ofNew s hnew =>
      intro _
      cases hconf : env.read_system_conf with
      | error e =>
          simp [TrustDnsResolver.new, hconf] at hnew
      | ok p => exact ⟨p, rfl⟩
  | ofWithConfig c o =>
      intro hs
      simp [TrustDnsResolver.with_config] at hs
  | step s n hps ih =>
      intro hs
      rcases call_state_cases env s n with heq | ⟨_, hh, hready⟩
      · rw [heq] at hs
        exact ih hs
      · rw [hready] at hs
        simp at hs

/-! ## The claims -/

/-- C1: from a freshly constructed (uninitialized) adapter, in every
reachable interleaving of concurrent first-time `resolve` calls at most one
engine construction has succeeded in storing `Ready`; when the cell is
`Ready h`, exactly one construction succeeded and every call that performs
or performed a lookup uses that same handle `h`; construction is serialized
by the initialization lock (a constructing task holds the lock, hence at
most one constructs at a time) while lookups are not (a reachable
configuration has two tasks simultaneously at the lookup point with the
lock free). -/
theorem call_single_flight (s : State) (names : Nat → String) (g : Global)
    (hu : s.isUninit) (hg : Reachable s names g) :
    g.readySuccesses ≤ 1 ∧
    (∀ h, g.state = State.Ready h →
        g.readySuccesses = 1 ∧ ∀ t r, (g.threads t).usesHandle r → r = h) ∧
    (∀ t, (g.threads t).isConstructing → g.lockHolder = some t) ∧
    (∀ t t', (g.threads t).isConstructing → (g.threads t').isConstructing → t = t') ∧
    (∃ g2, Reachable State.Init exName g2 ∧ (g2.threads 0).isLookingUp ∧
        (g2.threads 1).isLookingUp ∧ g2.lockHolder = none) := by
  obtain ⟨hlock, ha, hb, hc, hd⟩ := inv_reachable hu hg
  refine ⟨hd, hc, ?_, ?_, ?_⟩
  · intro t htc
    exact (hlock t).mpr (TPC.inCritical_of_isConstructing htc)
  · intro t t' h1 h2
    have e1 := (hlock t).mpr (TPC.inCritical_of_isConstructing h1)
    have e2 := (hlock t').mpr (TPC.inCritical_of_isConstructing h2)
    rw [e1] at e2
    exact Option.some.inj e2
  · exact ⟨gF, gF_reachable, trivial, trivial, rfl⟩

theorem call_single_flight_witness :
    gF.readySuccesses ≤ 1 ∧
    (∀ h, gF.state = State.Ready h →
        gF.readySuccesses = 1 ∧ ∀ t r, (gF.threads t).usesHandle r → r = h) ∧
    (∀ t, (gF.threads t).isConstructing → gF.lockHolder = some t) ∧
    (∀ t t', (gF.threads t).isConstructing → (gF.threads t').isConstructing → t = t') ∧
    (∃ g2, Reachable State.Init exName g2 ∧ (g2.threads 0).isLookingUp ∧
        (g2.threads 1).isLookingUp ∧ g2.lockHolder = none) :=
  call_single_flight State.Init exName gF trivial gF_reachable

/-- C4: in every reachable configuration, a task at the lookup suspension
point does not hold the initialization lock (the lock was released before
`lookup_ip` was invoked), and whoever holds the lock is inside the state
inspection/transition region only. -/
theorem call_lookup_outside_lock (s : State) (names : Nat → String) (g : Global)
    (hg : Reachable s names g) :
    (∀ t n r, g.threads t = TPC.lookingUp n r → g.lockHolder ≠ some t) ∧
    (∀ t, g.lockHolder = some t → (g.threads t).inCritical) := by
  have hlock := lockInv_reachable hg
  constructor
  · intro t n r ht hl
    have h2 := (hlock t).mp hl
    rw [ht] at h2
    exact h2
  · intro t hl
    exact (hlock t).mp hl

theorem call_lookup_outside_lock_witness :
    (∀ t n r, gF.threads t = TPC.lookingUp n r → gF.lockHolder ≠ some t) ∧
    (∀ t, gF.lockHolder = some t → (gF.threads t).inCritical) :=
  call_lookup_outside_lock State.Init exName gF gF_reachable

/-- C2: every `resolve` step either leaves the state cell unchanged or moves
an uninitialized state to `Ready`; once the cell is `Ready r`, any sequence
of further calls leaves it exactly `Ready r` and performs no
engine-construction attempt. -/
theorem ready_monotonic (env : Env) :
    (∀ s n, (TrustDnsResolver.call env s n).state = s ∨
        (s.isUninit ∧ ∃ h, (TrustDnsResolver.call env s n).state = State.Ready h)) ∧
    (∀ r ns, (callSeq env (State.Ready r) ns).2 = State.Ready r ∧
        ∀ out ∈ (callSeq env (State.Ready r) ns).1, out.constructAttempts = 0) :=
  ⟨call_state_cases env, fun r ns => callSeq_ready env r ns⟩

theorem ready_monotonic_witness :
    (∀ s n, (TrustDnsResolver.call envW s n).state = s ∨
        (s.isUninit ∧ ∃ h, (TrustDnsResolver.call envW s n).state = State.Ready h)) ∧
    (∀ r ns, (callSeq envW (State.Ready r) ns).2 = State.Ready r ∧
        ∀ out ∈ (callSeq envW (State.Ready r) ns).1, out.constructAttempts = 0) :=
  ready_monotonic envW

/-- C3: when engine construction fails, the call returns that construction
error wrapped in the component's boxed-error kind, the state cell is left
as the prior uninitialized variant (not `Ready`, no cached failure), and a
subsequent call on the same adapter attempts construction again (one fresh
construction attempt). -/
theorem construction_failure_retries (env : Env) :
    (∀ c o n e, env.read_system_conf = Except.ok (c, o) →
        env.async_resolver_new c o = Except.error e →
        (TrustDnsResolver.call env State.Init n).result
            = RustResult.err (BoxError.box e) ∧
        (TrustDnsResolver.call env State.Init n).state = State.Init ∧
        (TrustDnsResolver.call env State.Init n).constructAttempts = 1 ∧
        ∀ n2, (TrustDnsResolver.call env
            (TrustDnsResolver.call env State.Init n).state n2).constructAttempts = 1) ∧
    (∀ c o n e, env.async_resolver_new c o = Except.error e →
        (TrustDnsResolver.call env (State.InitWithConfig c o) n).result
            = RustResult.err (BoxError.box e) ∧
        (TrustDnsResolver.call env (State.InitWithConfig c o) n).state
            = State.InitWithConfig c o ∧
        (TrustDnsResolver.call env (State.InitWithConfig c o) n).constructAttempts = 1 ∧
        ∀ n2, (TrustDnsResolver.call env
            (TrustDnsResolver.call env (State.InitWithConfig c o) n).state
            n2).constructAttempts = 1) := by
  constructor
  · intro c o n e hconf hnew
    refine ⟨?_, ?_, ?_, ?_⟩ <;> simp [TrustDnsResolver.call, hconf, hnew]
  · intro c o n e hnew
    refine ⟨?_, ?_, ?_, ?_⟩ <;> simp [TrustDnsResolver.call, hnew]

theorem construction_failure_retries_witness :
    (TrustDnsResolver.call envCFail State.Init "example.test").result
        = RustResult.err (BoxError.box { msg := "bad config" }) ∧
    (TrustDnsResolver.call envCFail State.Init "example.test").state = State.Init ∧
    (TrustDnsResolver.call envCFail State.Init "example.test").constructAttempts = 1 ∧
    (∀ n2, (TrustDnsResolver.call envCFail
        (TrustDnsResolver.call envCFail State.Init "example.test").state
        n2).constructAttempts = 1) :=
  (construction_failure_retries envCFail).1 { id := 0 } { id := 0 } "example.test"
    { msg := "bad config" } rfl rfl

/-- C5: a successful `resolve` returns an iterator holding exactly the
finite list of addresses the engine produced for the queried name; the
engine was queried exactly once during the call; iterating the returned
value through `next` (`drain`) yields that list, and since the iterator is
a value over the produced-once stored list, repeating the iteration
replays the same addresses without another engine query. -/
theorem resolve_returns_engine_ips (env : Env) (n : String) :
    (∀ s it, (TrustDnsResolver.call env s n).result = RustResult.ok it →
        ∃ r ips, env.lookup_ip r n = Except.ok { ips := ips } ∧
          it.drain = ips ∧ it.remaining = ips ∧
          (TrustDnsResolver.call env s n).lookupCalls = 1) ∧
    (∀ r ips, env.lookup_ip r n = Except.ok { ips := ips } →
        (TrustDnsResolver.call env (State.Ready r) n).result =
          RustResult.ok (LookupIp.into_iter { ips := ips })) := by
  constructor
  · intro s it h
    cases s with
    | Init =>
        cases hconf : env.read_system_conf with
        | error e => simp [TrustDnsResolver.call, hconf] at h
        | ok p =>
            obtain ⟨c, o⟩ := p
            cases hnew : env.async_resolver_new c o with
            | error e => simp [TrustDnsResolver.call, hconf, hnew] at h
            | ok r =>
                simp only [TrustDnsResolver.call, hconf, hnew] at h
                obtain ⟨ips, hips, hrem, hlc⟩ := finishLookup_ok env _ r n 1 1 it h
                refine ⟨r, ips, hips, ?_, hrem, ?_⟩
                · rw [LookupIpIntoIter.drain_eq]
                  exact hrem
                · simp only [TrustDnsResolver.call, hconf, hnew]
                  exact hlc
    | InitWithConfig c o =>
        cases hnew : env.async_resolver_new c o with
        | error e => simp [TrustDnsResolver.call, hnew] at h
        | ok r =>
            simp only [TrustDnsResolver.call, hnew] at h
            obtain ⟨ips, hips, hrem, hlc⟩ := finishLookup_ok env _ r n 1 0 it h
            refine ⟨r, ips, hips, ?_, hrem, ?_⟩
            · rw [LookupIpIntoIter.drain_eq]
              exact hrem
            · simp only [TrustDnsResolver.call, hnew]
              exact hlc
    | Ready r =>
        simp only [TrustDnsResolver.call] at h
        obtain ⟨ips, hips, hrem, hlc⟩ := finishLookup_ok env _ r n 0 0 it h
        refine ⟨r, ips, hips, ?_, hrem, ?_⟩
        · rw [LookupIpIntoIter.drain_eq]
          exact hrem
        · simp only [TrustDnsResolver.call]
          exact hlc
  · intro r ips hl
    simp [TrustDnsResolver.call, finishLookup, hl]

theorem resolve_returns_engine_ips_witness :
    (∃ r ips, envW.lookup_ip r "example.test" = Except.ok { ips := ips } ∧
        LookupIpIntoIter.drain { remaining := [10, 2] } = ips ∧
        LookupIpIntoIter.remaining { remaining := [10, 2] } = ips ∧
        (TrustDnsResolver.call envW (State.Ready 7) "example.test").lookupCalls = 1) ∧
    (TrustDnsResolver.call envW (State.Ready 7) "example.test").result =
        RustResult.ok (LookupIp.into_iter { ips := [10, 2] }) :=
  ⟨(resolve_returns_engine_ips envW "example.test").1 (State.Ready 7)
      { remaining := [10, 2] } rfl,
   (resolve_returns_engine_ips envW "example.test").2 7 [10, 2] rfl⟩

/-- C6: the default constructor fails fast: if the process-wide system
configuration read failed, `new` returns an I/O error of the same kind
wrapping the underlying message, at construction time (no adapter exists,
so no `resolve` can surface it later); if the read succeeded, `new`
returns an adapter in the uninitialized `Init` state, which is not a
`Ready` state — the engine has not been constructed. -/
theorem new_fail_fast (env : Env) :
    (∀ e, env.read_system_conf = Except.error e →
        TrustDnsResolver.new env = Except.error
          { kind := e.kind, msg := "error reading DNS system conf: " ++ e.msg }) ∧
    (∀ p, env.read_system_conf = Except.ok p →
        TrustDnsResolver.new env = Except.ok State.Init ∧
        ∀ h, State.Init ≠ State.Ready h) := by
  constructor
  · intro e he
    simp [TrustDnsResolver.new, he]
  · intro p hp
    exact ⟨by simp [TrustDnsResolver.new, hp], fun h => by simp⟩

theorem new_fail_fast_witness :
    TrustDnsResolver.new envBad = Except.error
      { kind := 2, msg := "error reading DNS system conf: " ++ "no resolv conf" } ∧
    (TrustDnsResolver.new envW = Except.ok State.Init ∧
      ∀ h, State.Init ≠ State.Ready h) :=
  ⟨(new_fail_fast envBad).1 { kind := 2, msg := "no resolv conf" } rfl,
   (new_fail_fast envW).2 ({ id := 0 }, { id := 0 }) rfl⟩

/-- C7: `with_config` stores exactly the supplied configuration and options
in an `InitWithConfig` cell; the constructor takes no access to the system
configuration at all, and no `resolve` call in any sequence on such an
adapter ever reads the `SYSTEM_CONF` lazy static. -/
theorem with_config_needs_no_system_conf (env : Env) (c : ResolverConfig)
    (o : ResolverOpts) :
    TrustDnsResolver.with_config c o = State.InitWithConfig c o ∧
    ∀ ns, ∀ out ∈ (callSeq env (TrustDnsResolver.with_config c o) ns).1,
      out.sysConfReads = 0 :=
  ⟨rfl, fun ns => callSeq_no_sysconf env ns _ (by simp [TrustDnsResolver.with_config])⟩

theorem with_config_needs_no_system_conf_witness :
    TrustDnsResolver.with_config { id := 3 } { id := 4 }
        = State.InitWithConfig { id := 3 } { id := 4 } ∧
    ∀ ns, ∀ out ∈ (callSeq envBad
        (TrustDnsResolver.with_config { id := 3 } { id := 4 }) ns).1,
      out.sysConfReads = 0 :=
  with_config_needs_no_system_conf envBad { id := 3 } { id := 4 }

/-- C8: a per-call lookup failure on an initialized adapter is returned to
that call wrapped in the boxed-error kind, the state cell stays `Ready r`
with no construction attempt, and a subsequent `resolve` of another name
on the very same adapter state uses the same handle and succeeds. -/
theorem lookup_failure_isolated (env : Env) (r : SharedResolver) :
    ∀ n e n2 ips, env.lookup_ip r n = Except.error e →
      env.lookup_ip r n2 = Except.ok { ips := ips } →
      (TrustDnsResolver.call env (State.Ready r) n).result
          = RustResult.err (BoxError.box e) ∧
      (TrustDnsResolver.call env (State.Ready r) n).state = State.Ready r ∧
      (TrustDnsResolver.call env (State.Ready r) n).constructAttempts = 0 ∧
      (TrustDnsResolver.call env
          (TrustDnsResolver.call env (State.Ready r) n).state n2).result
          = RustResult.ok (LookupIp.into_iter { ips := ips }) := by
  intro n e n2 ips he hok
  refine ⟨?_, ?_, ?_, ?_⟩ <;>
    simp [TrustDnsResolver.call, finishLookup, he, hok]

theorem lookup_failure_isolated_witness :
    (TrustDnsResolver.call envW (State.Ready 7) "bad.test").result
        = RustResult.err (BoxError.box { msg := "nxdomain" }) ∧
    (TrustDnsResolver.call envW (State.Ready 7) "bad.test").state = State.Ready 7 ∧
    (TrustDnsResolver.call envW (State.Ready 7) "bad.test").constructAttempts = 0 ∧
    (TrustDnsResolver.call envW
        (TrustDnsResolver.call envW (State.Ready 7) "bad.test").state
        "good.test").result
        = RustResult.ok (LookupIp.into_iter { ips := [10, 2] }) :=
  lookup_failure_isolated envW 7 "bad.test" { msg := "nxdomain" } "good.test" [10, 2]
    rfl rfl

/-- C9: starting from the unevaluated `SYSTEM_CONF` cell, a sequence of `n`
forces performs the underlying system-configuration read at most once
(exactly once when `n ≥ 1`), every force observes the same cached outcome
(the process-fixed read result, success or failure alike — a failed read
is cached, not retried), and afterwards the cell immutably holds that
outcome. -/
theorem system_conf_read_once (env : Env) (n : Nat) :
    (LazyCell.forceSeq env (none : LazyCell) n).1
        = List.replicate n env.read_system_conf ∧
    (LazyCell.forceSeq env (none : LazyCell) n).2.2 = min n 1 ∧
    (n ≠ 0 → (LazyCell.forceSeq env (none : LazyCell) n).2.1
        = some env.read_system_conf) := by
  cases n with
  | zero => exact ⟨rfl, rfl, fun h => absurd rfl h⟩
  | succ n =>
      have hc := forceSeq_cached env env.read_system_conf n
      refine ⟨?_, ?_, fun _ => ?_⟩ <;>
        simp [LazyCell.forceSeq, LazyCell.force, hc, List.replicate]

theorem system_conf_read_once_witness :
    (LazyCell.forceSeq envBad (none : LazyCell) 3).1
        = List.replicate 3 envBad.read_system_conf ∧
    (LazyCell.forceSeq envBad (none : LazyCell) 3).2.2 = min 3 1 ∧
    (3 ≠ 0 → (LazyCell.forceSeq envBad (none : LazyCell) 3).2.1
        = some envBad.read_system_conf) :=
  system_conf_read_once envBad 3

/-- C10: the `expect` panic inside `new_resolver` is unreachable for every
adapter obtained through the public constructors: a state cell holding
`Init` can only have come from a successful `new`, which verified that the
system-configuration read succeeded, so `call` never reaches the panicked
outcome on any publicly obtainable adapter state. -/
theorem resolve_never_panics (env : Env) (s : State) (n : String)
    (h : PublicState env s) :
    ¬ (TrustDnsResolver.call env s n).result.isPanic := by
  cases s with
  | Init =>
      obtain ⟨p, hp⟩ := publicState_init_ok h rfl
      obtain ⟨c, o⟩ := p
      cases hnew : env.async_resolver_new c o with
      | error e => simp [TrustDnsResolver.call, hp, hnew, RustResult.isPanic]
      | ok r =>
          cases henv : env.lookup_ip r n <;>
            simp [TrustDnsResolver.call, finishLookup, hp, hnew, henv,
              RustResult.isPanic]
  | InitWithConfig c o =>
      cases hnew : env.async_resolver_new c o with
      | error e => simp [TrustDnsResolver.call, hnew, RustResult.isPanic]
      | ok r =>
          cases henv : env.lookup_ip r n <;>
            simp [TrustDnsResolver.call, finishLookup, hnew, henv, RustResult.isPanic]
  | Ready r =>
      cases henv : env.lookup_ip r n <;>
        simp [TrustDnsResolver.call, finishLookup, henv, RustResult.isPanic]

theorem resolve_never_panics_witness :
    ¬ (TrustDnsResolver.call envW State.Init "example.test").result.isPanic :=
  resolve_never_panics envW State.Init "example.test"
    (PublicState.ofNew State.Init rfl)

end TrustDns
